import Mathlib

/-!
Verification development for the AgentX Raydium trading path
(`src/agentx/tools/use_raydium.py`) and the plugin event bus
(`src/agentx/plugins/event_bus.py`).

The Python code is shallowly embedded: pure computations become Lean
functions over `ℚ`/`ℤ`/`ℕ`, the network-facing stages of `buy_with_raydium`
and `sell_with_raydium` are modelled by an environment record holding the
observed outcome (`Except PyExn _`) of each RPC call, and the `try/except`
wrapper becomes an explicit `match` that maps every error to `false`.
-/

set_option maxHeartbeats 1000000

/-- Python exceptions relevant to this development.  The
`invalidSlippageError` constructor exists so that the specification's
`InvalidSlippageError` can be talked about; no code in the repository
defines or raises such an exception. -/
inductive PyExn
  | invalidSlippageError
  | rpcError (code : ℕ)
deriving DecidableEq, Repr

/-- Python `int()` applied to a rational: truncation toward zero. -/
def pyInt (x : ℚ) : ℤ := if 0 ≤ x then ⌊x⌋ else ⌈x⌉

/-- Modelled from the spec: the lamports-per-native-unit scale used by
`agentx/utils/raydium/constants.py` (not under `src/`); the standard value
`10^9` is used, and no claim depends on the exact value. -/
def SOL_DECIMAL : ℚ := 10 ^ 9

/-- Modelled from the spec: the fixed compute-unit limit from
`agentx/utils/raydium/constants.py` (not under `src/`).  The spec only
requires it to be a fixed constant; the value is arbitrary here. -/
def UNIT_BUDGET : ℕ := 127717

/-- Modelled from the spec: the fixed compute-unit price from
`agentx/utils/raydium/constants.py` (not under `src/`). -/
def UNIT_PRICE : ℕ := 1337

/-- On-chain addresses.  Address derivation (`Pubkey.create_with_seed`,
`get_associated_token_address`) lives in external SDKs; it is idealized
here as a constructor, the usual collision-free model of hash-based
derivation. -/
inductive Pubkey
  | walletKey (n : ℕ)
  | mint (n : ℕ)
  | wsolMint
  | tokenAccountKey (n : ℕ)
  | associatedTokenAddress (owner : Pubkey) (assetMint : Pubkey)
  | createWithSeed (base : Pubkey) (seed : String) (owner : Pubkey)
  | programId (n : ℕ)
deriving DecidableEq, Repr

/-- The SPL token program id (opaque identifier). -/
def TOKEN_PROGRAM_ID : Pubkey := Pubkey.programId 0

/-- The wrapped-native (WSOL) mint. -/
def WSOL : Pubkey := Pubkey.wsolMint

/-- The pool-key fields the trading path reads (`fetch_pool_keys` result). -/
structure PoolKeys where
  base_mint : Pubkey
  quote_mint : Pubkey
deriving DecidableEq, Repr

/-- The instructions appearing in an assembled operation bundle. -/
inductive Instr
  | setComputeUnitLimit (units : ℕ)
  | setComputeUnitPrice (price : ℕ)
  | createAccountWithSeed (account : Pubkey) (seed : String) (lamports : ℤ)
  | initAccount (account : Pubkey)
  | createAssociatedTokenAccount (owner : Pubkey) (assetMint : Pubkey)
  | swap (amount_in minimum_amount_out : ℤ) (token_account_in token_account_out : Pubkey)
  | closeAccount (account : Pubkey)
deriving DecidableEq, Repr

/-- Modelled from the spec: `tokens_for_sol` from
`agentx/utils/raydium/utils.py` (not under `src/`), the spec's
`native_for_asset`: selling `token_amount` base-asset units for the quote
(native) asset under the constant product,
`native_out = quote_reserve - base_reserve * quote_reserve / (base_reserve + token_amount)`. -/
def tokens_for_sol (token_amount base_reserve quote_reserve : ℚ) : ℚ :=
  quote_reserve - base_reserve * quote_reserve / (base_reserve + token_amount)

/-- Modelled from the spec: `sol_for_tokens` from
`agentx/utils/raydium/utils.py` (not under `src/`), the spec's
`asset_for_native`: the symmetric inverse, selling native asset for the
base asset. -/
def sol_for_tokens (sol_in base_reserve quote_reserve : ℚ) : ℚ :=
  base_reserve - base_reserve * quote_reserve / (quote_reserve + sol_in)

/-- Buy-path slippage figure (`use_raydium.py` lines 69-70):
`int(amount_out * (1 - slippage/100) * 10**token_decimal)`. -/
def buy_minimum_amount_out (amount_out : ℚ) (slippage : ℤ) (token_decimal : ℕ) : ℤ :=
  pyInt (amount_out * (1 - (slippage : ℚ) / 100) * 10 ^ token_decimal)

/-- Sell-path slippage figure (`use_raydium.py` lines 212-214):
`int(amount_out * (1 - slippage/100) * SOL_DECIMAL)`. -/
def sell_minimum_amount_out (amount_out : ℚ) (slippage : ℤ) : ℤ :=
  pyInt (amount_out * (1 - (slippage : ℚ) / 100) * SOL_DECIMAL)

/-- The buy-path instruction list (`use_raydium.py` lines 132-142):
compute-budget pair, ephemeral WSOL account creation funded with
`balance_needed + amount_in`, its init, the optional associated-account
creation, then the swap and the WSOL close. -/
def buyInstructionList (payer : Pubkey) (seed : String) (assetMint : Pubkey)
    (balance_needed : ℕ) (amount_in minimum_amount_out : ℤ)
    (token_account : Pubkey) (has_token_account : Bool) : List Instr :=
  let wsol_token_account := Pubkey.createWithSeed payer seed TOKEN_PROGRAM_ID
  [Instr.setComputeUnitLimit UNIT_BUDGET,
   Instr.setComputeUnitPrice UNIT_PRICE,
   Instr.createAccountWithSeed wsol_token_account seed ((balance_needed : ℤ) + amount_in),
   Instr.initAccount wsol_token_account]
  ++ (if has_token_account then [] else [Instr.createAssociatedTokenAccount payer assetMint])
  ++ [Instr.swap amount_in minimum_amount_out wsol_token_account token_account,
      Instr.closeAccount wsol_token_account]

/-- The sell-path instruction list (`use_raydium.py` lines 252-266):
compute-budget pair, ephemeral WSOL account creation funded with exactly
`balance_needed`, its init, the swap, the WSOL close, and — only when
`percentage == 100` — the close of the source token account. -/
def sellInstructionList (payer : Pubkey) (seed : String) (assetMint : Pubkey)
    (balance_needed : ℕ) (amount_in minimum_amount_out : ℤ)
    (percentage : ℤ) : List Instr :=
  let wsol_token_account := Pubkey.createWithSeed payer seed TOKEN_PROGRAM_ID
  let token_account := Pubkey.associatedTokenAddress payer assetMint
  [Instr.setComputeUnitLimit UNIT_BUDGET,
   Instr.setComputeUnitPrice UNIT_PRICE,
   Instr.createAccountWithSeed wsol_token_account seed (balance_needed : ℤ),
   Instr.initAccount wsol_token_account,
   Instr.swap amount_in minimum_amount_out token_account wsol_token_account,
   Instr.closeAccount wsol_token_account]
  ++ (if percentage = 100 then [Instr.closeAccount token_account] else [])

/-- Observed outcomes of the network-facing stages of one
`buy_with_raydium` run.  A Python exception in a stage is an `.error`;
`confirm_txn` (from `agentx/utils/raydium/utils.py`, not under `src/`) is
modelled per the spec as returning a bare boolean. -/
structure BuyEnv where
  payer : Pubkey
  seed : String
  pool_keys : Except PyExn (Option PoolKeys)
  reserves : Except PyExn (ℚ × ℚ × ℕ)
  token_account_check : Except PyExn (Option Pubkey)
  balance_needed : Except PyExn ℕ
  latest_blockhash : Except PyExn ℕ
  send_result : Except PyExn ℕ
  confirm_result : Except PyExn Bool

/-- Observed outcomes of the network-facing stages of one
`sell_with_raydium` run. -/
structure SellEnv where
  payer : Pubkey
  seed : String
  pool_keys : Except PyExn (Option PoolKeys)
  token_balance : Except PyExn (Option ℚ)
  reserves : Except PyExn (ℚ × ℚ × ℕ)
  balance_needed : Except PyExn ℕ
  latest_blockhash : Except PyExn ℕ
  send_result : Except PyExn ℕ
  confirm_result : Except PyExn Bool

/-- Body of `buy_with_raydium` (the code inside the `try`,
`use_raydium.py` lines 55-159), with each network stage read from the
environment; a raised exception short-circuits as `.error`. -/
def buyInner (env : BuyEnv) (sol_in : ℚ) (slippage : ℤ) : Except PyExn Bool :=
  match env.pool_keys with
  | .error e => .error e
  | .ok none => .ok false
  | .ok (some pool_keys) =>
    let assetMint :=
      if pool_keys.base_mint = WSOL then pool_keys.quote_mint else pool_keys.base_mint
    let amount_in := pyInt (sol_in * SOL_DECIMAL)
    match env.reserves with
    | .error e => .error e
    | .ok (base_reserve, quote_reserve, token_decimal) =>
      let amount_out := sol_for_tokens sol_in base_reserve quote_reserve
      let minimum_amount_out := buy_minimum_amount_out amount_out slippage token_decimal
      match env.token_account_check with
      | .error e => .error e
      | .ok acctOpt =>
        let token_account :=
          match acctOpt with
          | some acct => acct
          | none => Pubkey.associatedTokenAddress env.payer assetMint
        match env.balance_needed with
        | .error e => .error e
        | .ok balance_needed =>
          let _instructions := buyInstructionList env.payer env.seed assetMint
            balance_needed amount_in minimum_amount_out token_account acctOpt.isSome
          match env.latest_blockhash with
          | .error e => .error e
          | .ok _ =>
            match env.send_result with
            | .error e => .error e
            | .ok _txn_sig => env.confirm_result

/-- Body of `sell_with_raydium` (the code inside the `try`,
`use_raydium.py` lines 179-287).  The percentage bound is checked before
any network call; out-of-range percentages `return False`. -/
def sellInner (env : SellEnv) (percentage slippage : ℤ) : Except PyExn Bool :=
  if percentage < 1 ∨ 100 < percentage then .ok false
  else
    match env.pool_keys with
    | .error e => .error e
    | .ok none => .ok false
    | .ok (some pool_keys) =>
      let assetMint :=
        if pool_keys.base_mint = WSOL then pool_keys.quote_mint else pool_keys.base_mint
      match env.token_balance with
      | .error e => .error e
      | .ok none => .ok false
      | .ok (some tb0) =>
        if tb0 = 0 then .ok false
        else
          let token_balance := tb0 * ((percentage : ℚ) / 100)
          match env.reserves with
          | .error e => .error e
          | .ok (base_reserve, quote_reserve, token_decimal) =>
            let amount_out := tokens_for_sol token_balance base_reserve quote_reserve
            let minimum_amount_out := sell_minimum_amount_out amount_out slippage
            let amount_in := pyInt (token_balance * 10 ^ token_decimal)
            match env.balance_needed with
            | .error e => .error e
            | .ok balance_needed =>
              let _instructions := sellInstructionList env.payer env.seed assetMint
                balance_needed amount_in minimum_amount_out percentage
              match env.latest_blockhash with
              | .error e => .error e
              | .ok _ =>
                match env.send_result with
                | .error e => .error e
                | .ok _txn_sig => env.confirm_result

/-- `buy_with_raydium` as seen by the caller: the `try/except Exception`
wrapper (`use_raydium.py` lines 161-163) maps every raised exception to
`False`. -/
def buy_with_raydium (env : BuyEnv) (sol_in : ℚ) (slippage : ℤ) : Bool :=
  match buyInner env sol_in slippage with
  | .ok b => b
  | .error _ => false

/-- `sell_with_raydium` as seen by the caller: the `try/except Exception`
wrapper (`use_raydium.py` lines 289-291) maps every raised exception to
`False`. -/
def sell_with_raydium (env : SellEnv) (percentage slippage : ℤ) : Bool :=
  match sellInner env percentage slippage with
  | .ok b => b
  | .error _ => false

/-! ## Seed generation (`use_raydium.py` lines 86-87 and 221-222)

`seed = base64.urlsafe_b64encode(os.urandom(24)).decode('utf-8')` followed
by `Pubkey.create_with_seed(payer, seed, TOKEN_PROGRAM_ID)`.  The stdlib
URL-safe base64 encoder (RFC 4648 §5) is embedded below; a byte is a `ℕ`
below 256. -/

/-- The URL-safe base64 alphabet. -/
def b64Alphabet : List Char :=
  "ABCDEFGHIJKLMNOPQRSTUVWXYZabcdefghijklmnopqrstuvwxyz0123456789-_".toList

/-- The character encoding a six-bit group. -/
def b64Char (n : ℕ) : Char := b64Alphabet.getD n 'A'

/-- Index of a base64 character in the alphabet (left inverse of
`b64Char` on values below 64). -/
def b64CharIndex (c : Char) : ℕ := b64Alphabet.indexOf c

/-- Regroup a byte list into six-bit groups, per RFC 4648. -/
def toSextets : List ℕ → List ℕ
  | a :: b :: c :: rest =>
      a / 4 :: (a % 4 * 16 + b / 16) :: (b % 16 * 4 + c / 64) :: c % 64 :: toSextets rest
  | [a, b] => [a / 4, a % 4 * 16 + b / 16, b % 16 * 4]
  | [a] => [a / 4, a % 4 * 16]
  | [] => []

/-- Regroup six-bit groups back into bytes (decoder direction, used only
to prove the encoder injective). -/
def fromSextets : List ℕ → List ℕ
  | a :: b :: c :: d :: rest =>
      (a * 4 + b / 16) :: (b % 16 * 16 + c / 4) :: (c % 4 * 64 + d) :: fromSextets rest
  | [a, b, c] => [a * 4 + b / 16, b % 16 * 16 + c / 4]
  | [a, b] => [a * 4 + b / 16]
  | _ => []

/-- `base64.urlsafe_b64encode`: six-bit regrouping, alphabet mapping, and
`'='` padding up to a multiple of four characters. -/
def urlsafe_b64encode (bs : List ℕ) : String :=
  String.mk ((toSextets bs).map b64Char ++ List.replicate ((3 - bs.length % 3) % 3) '=')

/-- The ephemeral WSOL account address derived by one assembly run from
the wallet and the 24 random bytes drawn by `os.urandom(24)`
(`use_raydium.py` lines 86-87 / 221-222). -/
def derivedWsolAccount (wallet : Pubkey) (randomBytes : List ℕ) : Pubkey :=
  Pubkey.createWithSeed wallet (urlsafe_b64encode randomBytes) TOKEN_PROGRAM_ID

/-! ## Event bus (`src/agentx/plugins/event_bus.py`)

Handlers are identified by a `ℕ` id; a behaviour map assigns each handler
its effect on an event, `.error` when the handler raises. -/

/-- The `Event` dataclass: name, timestamp (`datetime.now()` is a run
parameter here), and the keyword data. -/
structure Event where
  name : String
  timestamp : ℕ
  data : List (String × ℕ)
deriving DecidableEq, Repr

/-- The `EventBus`: its `_subscribers` dict, modelled as an association
list with unique keys in insertion order. -/
structure EventBus where
  subscribers : List (String × List ℕ)
deriving DecidableEq, Repr

/-- `self._subscribers.get(event_name, [])`. -/
def getSubs : List (String × List ℕ) → String → List ℕ
  | [], _ => []
  | p :: rest, event_name => if p.1 = event_name then p.2 else getSubs rest event_name

/-- `EventBus.subscribe`: `self._subscribers.setdefault(event_name,
[]).append(handler)` — append to the entry of an existing key, or add a
new key at the end. -/
def subscribeAux (subs : List (String × List ℕ)) (event_name : String) (handler : ℕ) :
    List (String × List ℕ) :=
  match subs with
  | [] => [(event_name, [handler])]
  | p :: rest =>
    if p.1 = event_name then (p.1, p.2 ++ [handler]) :: rest
    else p :: subscribeAux rest event_name handler

/-- `EventBus.subscribe` on the bus record. -/
def subscribe (bus : EventBus) (event_name : String) (handler : ℕ) : EventBus :=
  ⟨subscribeAux bus.subscribers event_name handler⟩

/-- The `for handler in ...: try: handler(event) except: print(...)` loop
of `EventBus.publish`: every handler is invoked in order on the same
event; a raising handler contributes an `.error` entry to the trace and
the loop continues. -/
def runHandlers (beh : ℕ → Event → Except PyExn Unit) (ev : Event) :
    List ℕ → List (ℕ × Except PyExn Unit)
  | [] => []
  | h :: rest => (h, beh h ev) :: runHandlers beh ev rest

/-- `EventBus.publish`: build the event, look up the subscribers of the
name (defaulting to `[]`), and run them all.  The returned trace records
each invocation and its outcome; the function is total — no handler
exception reaches the caller. -/
def publish (beh : ℕ → Event → Except PyExn Unit) (bus : EventBus)
    (event_name : String) (t : ℕ) (data : List (String × ℕ)) :
    List (ℕ × Except PyExn Unit) :=
  runHandlers beh (Event.mk event_name t data) (getSubs bus.subscribers event_name)

/-! ## Concrete runs

Environments describing single runs in which every network stage behaves
as recorded; used to evaluate the entry points at concrete inputs. -/

/-- A run in which every network stage succeeds and confirmation reports
`True`. -/
def goodEnvBuy : BuyEnv where
  payer := Pubkey.walletKey 0
  seed := "seedA"
  pool_keys := .ok (some ⟨Pubkey.mint 1, Pubkey.wsolMint⟩)
  reserves := .ok (1000, 500, 0)
  token_account_check := .ok (some (Pubkey.tokenAccountKey 3))
  balance_needed := .ok 2039280
  latest_blockhash := .ok 7
  send_result := .ok 42
  confirm_result := .ok true

/-- A sell run in which every network stage succeeds and confirmation
reports `True`. -/
def goodEnvSell : SellEnv where
  payer := Pubkey.walletKey 0
  seed := "seedB"
  pool_keys := .ok (some ⟨Pubkey.mint 1, Pubkey.wsolMint⟩)
  token_balance := .ok (some 100)
  reserves := .ok (1000, 500, 0)
  balance_needed := .ok 2039280
  latest_blockhash := .ok 7
  send_result := .ok 42
  confirm_result := .ok true

/-- A buy run whose submission is rejected by the network (the RPC call
raises, e.g. on an expired blockhash anchor). -/
def envBuyRejected : BuyEnv := { goodEnvBuy with send_result := .error (.rpcError 1) }

/-- A buy run whose confirmation polling gives up (`confirm_txn` returns
`False`). -/
def envBuyTimedOut : BuyEnv := { goodEnvBuy with confirm_result := .ok false }

/-- A sell run whose submission is rejected by the network. -/
def envSellRejected : SellEnv := { goodEnvSell with send_result := .error (.rpcError 1) }

/-- A sell run whose confirmation polling gives up. -/
def envSellTimedOut : SellEnv := { goodEnvSell with confirm_result := .ok false }

/-- A buy run whose very first network stage raises. -/
def envBuyError : BuyEnv := { goodEnvBuy with pool_keys := .error (.rpcError 9) }

/-- A sell run whose very first network stage raises. -/
def envSellError : SellEnv := { goodEnvSell with pool_keys := .error (.rpcError 9) }

/-! ## Theorems -/

/-- Stage number of an instruction inside an operation bundle; a bundle
is correctly ordered exactly when the stage numbers along it are
non-decreasing (compute-budget hints, then ephemeral account creation and
initialization and the optional associated-account creation, then the
swap, then the closes). -/
def instrPhase : Instr → ℕ
  | .setComputeUnitLimit _ => 0
  | .setComputeUnitPrice _ => 1
  | .createAccountWithSeed _ _ _ => 2
  | .initAccount _ => 3
  | .createAssociatedTokenAccount _ _ => 4
  | .swap _ _ _ _ => 5
  | .closeAccount _ => 6

/-- C3: for non-negative `base_reserve`, positive `quote_reserve` and
non-negative `asset_in`, the constant-product output
`tokens_for_sol asset_in base_reserve quote_reserve` never exceeds the
quote reserve and is monotonically non-decreasing in `asset_in`. -/
theorem tokens_for_sol_bounded_mono (b q x y : ℚ) (hb : 0 ≤ b) (hq : 0 < q)
    (hx : 0 ≤ x) (hxy : x ≤ y) :
    tokens_for_sol x b q ≤ q ∧ tokens_for_sol x b q ≤ tokens_for_sol y b q := by
  constructor
  · have hdiv : 0 ≤ b * q / (b + x) := div_nonneg (mul_nonneg hb hq.le) (by linarith)
    unfold tokens_for_sol
    linarith
  · have key : b * q / (b + y) ≤ b * q / (b + x) := by
      rcases eq_or_lt_of_le hb with hb0 | hbpos
      · simp [← hb0]
      · have hbx : 0 < b + x := by linarith
        have hby : b + x ≤ b + y := by linarith
        gcongr
    unfold tokens_for_sol
    linarith

/-- Witness for C3 at the spec's example reserves. -/
theorem tokens_for_sol_bounded_mono_witness :
    tokens_for_sol 10000 1000000 500000 ≤ 500000 ∧
    tokens_for_sol 10000 1000000 500000 ≤ tokens_for_sol 20000 1000000 500000 :=
  tokens_for_sol_bounded_mono 1000000 500000 10000 20000
    (by norm_num) (by norm_num) (by norm_num) (by norm_num)

/-- C7: for an integer output estimate `e` (in smallest units, scale
`10^d` on the buy path and `SOL_DECIMAL` on the sell path) and a slippage
percentage within `[0, 100]`, the computed minimum output equals
`⌊e * (1 - s/100)⌋`, is at most the estimate, is non-negative, and equals
the estimate exactly when the slippage is zero. -/
theorem minimum_amount_out_spec (e d s : ℕ) (hs : s ≤ 100) :
    buy_minimum_amount_out ((e : ℚ) / 10 ^ d) (s : ℤ) d = ⌊(e : ℚ) * (1 - (s : ℚ) / 100)⌋ ∧
    sell_minimum_amount_out ((e : ℚ) / SOL_DECIMAL) (s : ℤ) = ⌊(e : ℚ) * (1 - (s : ℚ) / 100)⌋ ∧
    buy_minimum_amount_out ((e : ℚ) / 10 ^ d) (s : ℤ) d ≤ (e : ℤ) ∧
    0 ≤ buy_minimum_amount_out ((e : ℚ) / 10 ^ d) (s : ℤ) d ∧
    (s = 0 → buy_minimum_amount_out ((e : ℚ) / 10 ^ d) (s : ℤ) d = (e : ℤ)) := by
  have hsq : (s : ℚ) ≤ 100 := by exact_mod_cast hs
  have hfac : 0 ≤ 1 - (s : ℚ) / 100 := by linarith
  have hA0 : 0 ≤ (e : ℚ) * (1 - (s : ℚ) / 100) := mul_nonneg (Nat.cast_nonneg e) hfac
  have hbuyArg : (e : ℚ) / 10 ^ d * (1 - ((s : ℤ) : ℚ) / 100) * 10 ^ d
      = (e : ℚ) * (1 - (s : ℚ) / 100) := by
    have h10 : (10 : ℚ) ^ d ≠ 0 := by positivity
    push_cast
    field_simp
    ring
  have hsellArg : (e : ℚ) / SOL_DECIMAL * (1 - ((s : ℤ) : ℚ) / 100) * SOL_DECIMAL
      = (e : ℚ) * (1 - (s : ℚ) / 100) := by
    have h10 : SOL_DECIMAL ≠ 0 := by unfold SOL_DECIMAL; positivity
    push_cast
    field_simp
    ring
  have hbuy : buy_minimum_amount_out ((e : ℚ) / 10 ^ d) (s : ℤ) d
      = ⌊(e : ℚ) * (1 - (s : ℚ) / 100)⌋ := by
    unfold buy_minimum_amount_out pyInt
    rw [hbuyArg, if_pos hA0]
  have hsell : sell_minimum_amount_out ((e : ℚ) / SOL_DECIMAL) (s : ℤ)
      = ⌊(e : ℚ) * (1 - (s : ℚ) / 100)⌋ := by
    unfold sell_minimum_amount_out pyInt
    rw [hsellArg, if_pos hA0]
  have hle : ⌊(e : ℚ) * (1 - (s : ℚ) / 100)⌋ ≤ (e : ℤ) := by
    have hAe : (e : ℚ) * (1 - (s : ℚ) / 100) ≤ (e : ℚ) := by
      nlinarith [Nat.cast_nonneg (α := ℚ) e]
    calc ⌊(e : ℚ) * (1 - (s : ℚ) / 100)⌋ ≤ ⌊(e : ℚ)⌋ := Int.floor_le_floor hAe
    _ = (e : ℤ) := Int.floor_natCast e
  refine ⟨hbuy, hsell, hbuy ▸ hle, hbuy ▸ Int.floor_nonneg.mpr hA0, ?_⟩
  intro hs0
  subst hs0
  rw [hbuy]
  norm_num

/-- `buy_with_raydium` returns `True` exactly when every network stage
succeeds, the pool resolves, and confirmation reports `True`. -/
lemma buy_true_iff (env : BuyEnv) (sol_in : ℚ) (slippage : ℤ) :
    buy_with_raydium env sol_in slippage = true ↔
      (∃ pk, env.pool_keys = .ok (some pk)) ∧ (∃ r, env.reserves = .ok r) ∧
      (∃ a, env.token_account_check = .ok a) ∧ (∃ n, env.balance_needed = .ok n) ∧
      (∃ bh, env.latest_blockhash = .ok bh) ∧ (∃ g, env.send_result = .ok g) ∧
      env.confirm_result = .ok true := by
  cases hpk : env.pool_keys with
  | error e => simp [buy_with_raydium, buyInner, hpk]
  | ok pk? =>
    cases pk? with
    | none => simp [buy_with_raydium, buyInner, hpk]
    | some pk =>
      cases hres : env.reserves with
      | error e => simp [buy_with_raydium, buyInner, hpk, hres]
      | ok r =>
        obtain ⟨b, q, d⟩ := r
        cases hacct : env.token_account_check with
        | error e => simp [buy_with_raydium, buyInner, hpk, hres, hacct]
        | ok a =>
          cases hbal : env.balance_needed with
          | error e => simp [buy_with_raydium, buyInner, hpk, hres, hacct, hbal]
          | ok n =>
            cases hbh : env.latest_blockhash with
            | error e => simp [buy_with_raydium, buyInner, hpk, hres, hacct, hbal, hbh]
            | ok bh =>
              cases hsend : env.send_result with
              | error e =>
                simp [buy_with_raydium, buyInner, hpk, hres, hacct, hbal, hbh, hsend]
              | ok g =>
                cases hconf : env.confirm_result with
                | error e =>
                  simp [buy_with_raydium, buyInner, hpk, hres, hacct, hbal, hbh, hsend, hconf]
                | ok bres =>
                  cases bres <;>
                    simp [buy_with_raydium, buyInner, hpk, hres, hacct, hbal, hbh, hsend, hconf]

/-- `sell_with_raydium` returns `True` exactly when the percentage is in
range, every network stage succeeds, the pool resolves, the balance is
non-zero, and confirmation reports `True`. -/
lemma sell_true_iff (env : SellEnv) (percentage slippage : ℤ) :
    sell_with_raydium env percentage slippage = true ↔
      (1 ≤ percentage ∧ percentage ≤ 100) ∧
      (∃ pk, env.pool_keys = .ok (some pk)) ∧
      (∃ tb, env.token_balance = .ok (some tb) ∧ tb ≠ 0) ∧
      (∃ r, env.reserves = .ok r) ∧ (∃ n, env.balance_needed = .ok n) ∧
      (∃ bh, env.latest_blockhash = .ok bh) ∧ (∃ g, env.send_result = .ok g) ∧
      env.confirm_result = .ok true := by
  by_cases hper : percentage < 1 ∨ 100 < percentage
  · have hno : ¬(1 ≤ percentage ∧ percentage ≤ 100) := by omega
    simp [sell_with_raydium, sellInner, hper, hno]
  · have hyes : 1 ≤ percentage ∧ percentage ≤ 100 := by omega
    cases hpk : env.pool_keys with
    | error e => simp [sell_with_raydium, sellInner, hper, hpk]
    | ok pk? =>
      cases pk? with
      | none => simp [sell_with_raydium, sellInner, hper, hpk]
      | some pk =>
        cases htb : env.token_balance with
        | error e => simp [sell_with_raydium, sellInner, hper, hpk, htb]
        | ok tb? =>
          cases tb? with
          | none => simp [sell_with_raydium, sellInner, hper, hpk, htb]
          | some tb =>
            by_cases htb0 : tb = 0
            · simp [sell_with_raydium, sellInner, hper, hpk, htb, htb0]
            · cases hres : env.reserves with
              | error e => simp [sell_with_raydium, sellInner, hper, hpk, htb, htb0, hres]
              | ok r =>
                obtain ⟨b, q, d⟩ := r
                cases hbal : env.balance_needed with
                | error e =>
                  simp [sell_with_raydium, sellInner, hper, hpk, htb, htb0, hres, hbal]
                | ok n =>
                  cases hbh : env.latest_blockhash with
                  | error e =>
                    simp [sell_with_raydium, sellInner, hper, hpk, htb, htb0, hres, hbal, hbh]
                  | ok bh =>
                    cases hsend : env.send_result with
                    | error e =>
                      simp [sell_with_raydium, sellInner, hper, hpk, htb, htb0, hres, hbal,
                        hbh, hsend]
                    | ok g =>
                      cases hconf : env.confirm_result with
                      | error e =>
                        simp [sell_with_raydium, sellInner, hper, hpk, htb, htb0, hres, hbal,
                          hbh, hsend, hconf]
                      | ok bres =>
                        cases bres <;>
                          simp [sell_with_raydium, sellInner, hper, hyes, hpk, htb, htb0,
                            hres, hbal, hbh, hsend, hconf]

/-- C4: every assembled bundle is ordered as stated — the compute-budget
pair (unit limit then unit price) comes first, the ephemeral WSOL account
creation and initialization and the optional associated-account creation
all precede the swap, and the close instructions follow the swap.  The
ordering is expressed by the stage numbers `instrPhase` being sorted
along the bundle, together with membership facts showing each stage is
actually present (the associated-account creation exactly when the wallet
has no token account yet). -/
theorem bundle_instruction_order (payer : Pubkey) (seed : String) (assetMint : Pubkey)
    (bn : ℕ) (ai mo : ℤ) (ta : Pubkey) (hasAcct : Bool) (p : ℤ) :
    (buyInstructionList payer seed assetMint bn ai mo ta hasAcct).take 2
        = [Instr.setComputeUnitLimit UNIT_BUDGET, Instr.setComputeUnitPrice UNIT_PRICE] ∧
    List.Sorted (· ≤ ·)
        ((buyInstructionList payer seed assetMint bn ai mo ta hasAcct).map instrPhase) ∧
    Instr.createAccountWithSeed (Pubkey.createWithSeed payer seed TOKEN_PROGRAM_ID) seed
        ((bn : ℤ) + ai) ∈ buyInstructionList payer seed assetMint bn ai mo ta hasAcct ∧
    Instr.initAccount (Pubkey.createWithSeed payer seed TOKEN_PROGRAM_ID)
        ∈ buyInstructionList payer seed assetMint bn ai mo ta hasAcct ∧
    Instr.swap ai mo (Pubkey.createWithSeed payer seed TOKEN_PROGRAM_ID) ta
        ∈ buyInstructionList payer seed assetMint bn ai mo ta hasAcct ∧
    Instr.closeAccount (Pubkey.createWithSeed payer seed TOKEN_PROGRAM_ID)
        ∈ buyInstructionList payer seed assetMint bn ai mo ta hasAcct ∧
    (Instr.createAssociatedTokenAccount payer assetMint
        ∈ buyInstructionList payer seed assetMint bn ai mo ta hasAcct ↔ hasAcct = false) ∧
    (sellInstructionList payer seed assetMint bn ai mo p).take 2
        = [Instr.setComputeUnitLimit UNIT_BUDGET, Instr.setComputeUnitPrice UNIT_PRICE] ∧
    List.Sorted (· ≤ ·)
        ((sellInstructionList payer seed assetMint bn ai mo p).map instrPhase) ∧
    Instr.swap ai mo (Pubkey.associatedTokenAddress payer assetMint)
        (Pubkey.createWithSeed payer seed TOKEN_PROGRAM_ID)
        ∈ sellInstructionList payer seed assetMint bn ai mo p ∧
    Instr.closeAccount (Pubkey.createWithSeed payer seed TOKEN_PROGRAM_ID)
        ∈ sellInstructionList payer seed assetMint bn ai mo p := by
  cases hasAcct <;> by_cases hp : p = 100 <;>
    simp [buyInstructionList, sellInstructionList, instrPhase, hp, List.Sorted]

/-- C5: the sell bundle contains a close instruction for the source token
account exactly when the sale is of 100% of holdings. -/
theorem sell_close_source_iff_full (payer : Pubkey) (seed : String) (assetMint : Pubkey)
    (bn : ℕ) (ai mo p : ℤ) :
    Instr.closeAccount (Pubkey.associatedTokenAddress payer assetMint)
        ∈ sellInstructionList payer seed assetMint bn ai mo p ↔ p = 100 := by
  by_cases hp : p = 100 <;> simp [sellInstructionList, hp]

/-- C6: every ephemeral-account creation instruction in a buy bundle is
funded with exactly `balance_needed + amount_in` lamports, and every one
in a sell bundle with exactly `balance_needed` lamports. -/
theorem wsol_funding_lamports (payer : Pubkey) (seed : String) (assetMint : Pubkey)
    (bn : ℕ) (ai mo : ℤ) (ta : Pubkey) (hasAcct : Bool) (p : ℤ) :
    (∀ acct s lam, Instr.createAccountWithSeed acct s lam
        ∈ buyInstructionList payer seed assetMint bn ai mo ta hasAcct → lam = (bn : ℤ) + ai) ∧
    (∀ acct s lam, Instr.createAccountWithSeed acct s lam
        ∈ sellInstructionList payer seed assetMint bn ai mo p → lam = (bn : ℤ)) := by
  constructor
  · intro acct s lam hmem
    cases hasAcct <;> simp [buyInstructionList] at hmem <;> exact hmem.2.2
  · intro acct s lam hmem
    by_cases hp : p = 100 <;> simp [sellInstructionList, hp] at hmem <;> exact hmem.2.2

/-- Witness for C6 at concrete arguments (`balance_needed = 5`,
`amount_in = 2` on the buy path; `balance_needed = 5` on the sell path). -/
theorem wsol_funding_lamports_witness :
    ((7 : ℤ) = ((5 : ℕ) : ℤ) + 2) ∧ ((5 : ℤ) = ((5 : ℕ) : ℤ)) :=
  ⟨(wsol_funding_lamports (Pubkey.walletKey 0) "s" (Pubkey.mint 1) 5 2 3
      (Pubkey.tokenAccountKey 3) true 100).1
      (Pubkey.createWithSeed (Pubkey.walletKey 0) "s" TOKEN_PROGRAM_ID) "s" 7 (by decide),
   (wsol_funding_lamports (Pubkey.walletKey 0) "s" (Pubkey.mint 1) 5 2 3
      (Pubkey.tokenAccountKey 3) true 100).2
      (Pubkey.createWithSeed (Pubkey.walletKey 0) "s" TOKEN_PROGRAM_ID) "s" 5 (by decide)⟩

/-- C1 is false of the code: with `slippage = 150` (outside `[0, 100]`)
both entry points run every network stage to completion and report a
confirmed trade — no `InvalidSlippageError` (or any error) is raised, to
the caller or at all; likewise for a negative slippage. -/
theorem slippage_validation_cex :
    buyInner goodEnvBuy (1/100) 150 = Except.ok true ∧
    sellInner goodEnvSell 50 150 = Except.ok true ∧
    buy_with_raydium goodEnvBuy (1/100) 150 = true ∧
    sell_with_raydium goodEnvSell 50 150 = true ∧
    buyInner goodEnvBuy (1/100) (-3) = Except.ok true :=
  ⟨rfl, rfl, rfl, rfl, rfl⟩

/-- C1 (amended): neither `buy_with_raydium` nor `sell_with_raydium`
validates `slippage` at all — every slippage value, in or out of
`[0, 100]`, is accepted and the trade proceeds; the only bound check in
either function is `sell_with_raydium`'s on `percentage`, which makes the
call return `False` (not raise) when the percentage is outside
`[1, 100]`. -/
theorem slippage_not_validated :
    (∀ s : ℤ, buy_with_raydium goodEnvBuy (1/100) s = true) ∧
    (∀ s : ℤ, sell_with_raydium goodEnvSell 50 s = true) ∧
    (∀ s : ℤ, sell_with_raydium goodEnvSell 150 s = false) :=
  ⟨fun _ => rfl, fun _ => rfl, fun _ => rfl⟩

/-- C2 is false of the code: the outcome type of both entry points is a
bare boolean, and a run whose submission is rejected by the network (the
expired-anchor case: `send_transaction` raises) yields exactly the same
outcome, `False`, as a run whose confirmation polling times out — the
two cases the claim requires to surface as distinct variants. -/
theorem outcome_collapse_cex :
    buy_with_raydium envBuyRejected (1/100) 5 = buy_with_raydium envBuyTimedOut (1/100) 5 ∧
    buy_with_raydium envBuyRejected (1/100) 5 = false ∧
    sell_with_raydium envSellRejected 50 5 = sell_with_raydium envSellTimedOut 50 5 ∧
    sell_with_raydium envSellRejected 50 5 = false :=
  ⟨rfl, rfl, rfl, rfl⟩

/-- C2 (amended): the two entry points return a boolean outcome, not a
three-variant one — `True` only when every stage succeeds and
confirmation reports `True`; a network rejection of the submission (for
example an expired anchor) and a confirmation timeout both surface as
`False`, indistinguishably. -/
theorem outcome_boolean (env : BuyEnv) (senv : SellEnv) (i : ℚ) (p s s' : ℤ) :
    (∀ e, env.send_result = .error e → buy_with_raydium env i s = false) ∧
    (env.confirm_result = .ok false → buy_with_raydium env i s = false) ∧
    (∀ e, senv.send_result = .error e → sell_with_raydium senv p s' = false) ∧
    (senv.confirm_result = .ok false → sell_with_raydium senv p s' = false) ∧
    buy_with_raydium goodEnvBuy (1/100) 5 = true := by
  refine ⟨?_, ?_, ?_, ?_, rfl⟩
  · intro e he
    cases hb : buy_with_raydium env i s with
    | false => rfl
    | true =>
      obtain ⟨_, _, _, _, _, ⟨g, hg⟩, _⟩ := (buy_true_iff env i s).mp hb
      rw [he] at hg
      simp at hg
  · intro hc
    cases hb : buy_with_raydium env i s with
    | false => rfl
    | true =>
      obtain ⟨_, _, _, _, _, _, hconf⟩ := (buy_true_iff env i s).mp hb
      rw [hc] at hconf
      simp at hconf
  · intro e he
    cases hb : sell_with_raydium senv p s' with
    | false => rfl
    | true =>
      obtain ⟨_, _, _, _, _, _, ⟨g, hg⟩, _⟩ := (sell_true_iff senv p s').mp hb
      rw [he] at hg
      simp at hg
  · intro hc
    cases hb : sell_with_raydium senv p s' with
    | false => rfl
    | true =>
      obtain ⟨_, _, _, _, _, _, _, hconf⟩ := (sell_true_iff senv p s').mp hb
      rw [hc] at hconf
      simp at hconf

/-- Witness for the amended C2: a rejected buy submission and a timed-out
sell confirmation both return `False`. -/
theorem outcome_boolean_witness :
    buy_with_raydium envBuyRejected (1/100) 5 = false ∧
    sell_with_raydium envSellTimedOut 50 5 = false :=
  ⟨(outcome_boolean envBuyRejected envSellTimedOut (1/100) 50 5 5).1 (.rpcError 1) rfl,
   (outcome_boolean envBuyRejected envSellTimedOut (1/100) 50 5 5).2.2.2.1 rfl⟩

/-- C8: both entry points catch every internal error — whenever the body
raises at any stage, the caller receives `False`, never an exception. -/
theorem trade_errors_return_false :
    (∀ (env : BuyEnv) (sol_in : ℚ) (slippage : ℤ) (e : PyExn),
        buyInner env sol_in slippage = .error e →
          buy_with_raydium env sol_in slippage = false) ∧
    (∀ (env : SellEnv) (percentage slippage : ℤ) (e : PyExn),
        sellInner env percentage slippage = .error e →
          sell_with_raydium env percentage slippage = false) := by
  constructor
  · intro env sol_in slippage e h
    simp [buy_with_raydium, h]
  · intro env percentage slippage e h
    simp [sell_with_raydium, h]

/-- Witness for C8: runs whose first network stage raises return
`False`. -/
theorem trade_errors_return_false_witness :
    buy_with_raydium envBuyError (1/100) 5 = false ∧
    sell_with_raydium envSellError 50 5 = false :=
  ⟨trade_errors_return_false.1 envBuyError (1/100) 5 (.rpcError 9) rfl,
   trade_errors_return_false.2 envSellError 50 5 (.rpcError 9) rfl⟩

/-- Six-bit regrouping loses no information: decoding the sextets of a
byte list returns the bytes. -/
lemma fromSextets_toSextets : ∀ bs : List ℕ, (∀ x ∈ bs, x < 256) →
    fromSextets (toSextets bs) = bs := by
  intro bs
  induction bs using toSextets.induct with
  | case1 a b c rest ih =>
    intro h
    have ha : a < 256 := h a (by simp)
    have hb : b < 256 := h b (by simp)
    have hc : c < 256 := h c (by simp)
    have hrest := ih (fun x hx => h x (by simp [hx]))
    simp only [toSextets, fromSextets, hrest, List.cons.injEq, and_true]
    omega
  | case2 a b =>
    intro h
    have ha : a < 256 := h a (by simp)
    have hb : b < 256 := h b (by simp)
    simp only [toSextets, fromSextets, List.cons.injEq, and_true]
    omega
  | case3 a =>
    intro h
    have ha : a < 256 := h a (by simp)
    simp only [toSextets, fromSextets, List.cons.injEq, and_true]
    omega
  | case4 => intro _; rfl

/-- Every sextet of a valid byte list is below 64. -/
lemma toSextets_lt : ∀ bs : List ℕ, (∀ x ∈ bs, x < 256) →
    ∀ y ∈ toSextets bs, y < 64 := by
  intro bs
  induction bs using toSextets.induct with
  | case1 a b c rest ih =>
    intro h y hy
    have ha : a < 256 := h a (by simp)
    have hb : b < 256 := h b (by simp)
    have hc : c < 256 := h c (by simp)
    simp only [toSextets, List.mem_cons] at hy
    rcases hy with rfl | rfl | rfl | rfl | hy
    · omega
    · omega
    · omega
    · omega
    · exact ih (fun x hx => h x (by simp [hx])) y hy
  | case2 a b =>
    intro h y hy
    have ha : a < 256 := h a (by simp)
    have hb : b < 256 := h b (by simp)
    simp only [toSextets, List.mem_cons] at hy
    rcases hy with rfl | rfl | rfl | hy
    · omega
    · omega
    · omega
    · simp at hy
  | case3 a =>
    intro h y hy
    have ha : a < 256 := h a (by simp)
    simp only [toSextets, List.mem_cons] at hy
    rcases hy with rfl | rfl | hy
    · omega
    · omega
    · simp at hy
  | case4 => intro _ y hy; simp [toSextets] at hy

/-- `b64CharIndex` inverts `b64Char` on six-bit values. -/
lemma b64CharIndex_b64Char : ∀ n, n < 64 → b64CharIndex (b64Char n) = n := by decide

/-- Mapping the alphabet over sextet lists is injective. -/
lemma map_b64Char_inj : ∀ l1 l2 : List ℕ, (∀ y ∈ l1, y < 64) → (∀ y ∈ l2, y < 64) →
    l1.map b64Char = l2.map b64Char → l1 = l2 := by
  intro l1
  induction l1 with
  | nil =>
    intro l2 _ _ h
    cases l2 with
    | nil => rfl
    | cons b t2 => simp at h
  | cons a t ih =>
    intro l2 h1 h2 h
    cases l2 with
    | nil => simp at h
    | cons b t2 =>
      simp only [List.map_cons, List.cons.injEq] at h
      obtain ⟨hab, ht⟩ := h
      have ha := h1 a (by simp)
      have hb := h2 b (by simp)
      have hhead : a = b := by
        have hidx := congrArg b64CharIndex hab
        rwa [b64CharIndex_b64Char a ha, b64CharIndex_b64Char b hb] at hidx
      rw [hhead, ih t2 (fun y hy => h1 y (by simp [hy])) (fun y hy => h2 y (by simp [hy])) ht]

/-- The URL-safe base64 encoder is injective on 24-byte inputs. -/
lemma b64encode_inj (r1 r2 : List ℕ) (h1 : r1.length = 24) (h2 : r2.length = 24)
    (hv1 : ∀ x ∈ r1, x < 256) (hv2 : ∀ x ∈ r2, x < 256)
    (henc : urlsafe_b64encode r1 = urlsafe_b64encode r2) : r1 = r2 := by
  unfold urlsafe_b64encode at henc
  rw [h1, h2] at henc
  simp only [show (3 - 24 % 3) % 3 = 0 from by norm_num, List.replicate_zero,
    List.append_nil] at henc
  have hdata : (toSextets r1).map b64Char = (toSextets r2).map b64Char :=
    congrArg String.data henc
  have hsex := map_b64Char_inj _ _ (toSextets_lt r1 hv1) (toSextets_lt r2 hv2) hdata
  calc r1 = fromSextets (toSextets r1) := (fromSextets_toSextets r1 hv1).symm
  _ = fromSextets (toSextets r2) := by rw [hsex]
  _ = r2 := fromSextets_toSextets r2 hv2

/-- C9: two assembly runs for the same wallet that draw distinct 24-byte
random seeds derive distinct ephemeral WSOL account addresses (the
seed-string encoding is injective, and the SDK address derivation is
modelled as collision-free). -/
theorem ephemeral_address_distinct (w : Pubkey) (r1 r2 : List ℕ)
    (h1 : r1.length = 24) (h2 : r2.length = 24)
    (hv1 : ∀ x ∈ r1, x < 256) (hv2 : ∀ x ∈ r2, x < 256)
    (hne : r1 ≠ r2) :
    derivedWsolAccount w r1 ≠ derivedWsolAccount w r2 := by
  intro hEq
  apply hne
  unfold derivedWsolAccount at hEq
  injection hEq with hbase hseed howner
  exact b64encode_inj r1 r2 h1 h2 hv1 hv2 hseed

/-- The publish loop invokes every listed handler, in list order, on the
given event, whether or not earlier handlers raise. -/
lemma runHandlers_eq_map (beh : ℕ → Event → Except PyExn Unit) (ev : Event) :
    ∀ l : List ℕ, runHandlers beh ev l = l.map (fun hid => (hid, beh hid ev)) := by
  intro l
  induction l with
  | nil => rfl
  | cons a t ih => simp [runHandlers, ih]

/-- Subscribing appends the handler to the end of the name's handler
list. -/
lemma getSubs_subscribeAux (subs : List (String × List ℕ)) (event_name : String) (hid : ℕ) :
    getSubs (subscribeAux subs event_name hid) event_name
      = getSubs subs event_name ++ [hid] := by
  induction subs with
  | nil => simp [subscribeAux, getSubs]
  | cons p rest ih =>
    by_cases hp : p.1 = event_name
    · simp [subscribeAux, getSubs, hp]
    · simp [subscribeAux, getSubs, hp, ih]

/-- C10: `EventBus.publish` invokes exactly the handlers subscribed to
the event name, in subscription order, each on the same `Event` value;
the trace is a total function of the run (no handler exception reaches
the caller), a raising handler does not prevent the handlers after it
from running, a name with no subscribers publishes to nobody, and
`subscribe` appends at the end of the invocation order. -/
theorem publish_trace_spec (beh : ℕ → Event → Except PyExn Unit) (bus : EventBus)
    (event_name : String) (t : ℕ) (data : List (String × ℕ)) (hid : ℕ) :
    publish beh bus event_name t data
        = (getSubs bus.subscribers event_name).map
            (fun k => (k, beh k (Event.mk event_name t data))) ∧
    (publish beh bus event_name t data).map Prod.fst = getSubs bus.subscribers event_name ∧
    (getSubs bus.subscribers event_name = [] → publish beh bus event_name t data = []) ∧
    (∀ pre h post, getSubs bus.subscribers event_name = pre ++ h :: post →
        (publish beh bus event_name t data).drop (pre.length + 1)
          = post.map (fun k => (k, beh k (Event.mk event_name t data)))) ∧
    getSubs (subscribe bus event_name hid).subscribers event_name
        = getSubs bus.subscribers event_name ++ [hid] := by
  have hmap : publish beh bus event_name t data
      = (getSubs bus.subscribers event_name).map
          (fun k => (k, beh k (Event.mk event_name t data))) :=
    runHandlers_eq_map beh (Event.mk event_name t data) (getSubs bus.subscribers event_name)
  refine ⟨hmap, ?_, ?_, ?_, getSubs_subscribeAux bus.subscribers event_name hid⟩
  · rw [hmap, List.map_map]
    have hcomp : (Prod.fst ∘ fun k : ℕ => (k, beh k (Event.mk event_name t data))) = id := rfl
    rw [hcomp, List.map_id]
  · intro h0
    rw [hmap, h0]
    rfl
  · intro pre h post hsplit
    rw [hmap, hsplit]
    simp only [List.map_append, List.map_cons]
    rw [← List.length_map pre (fun k => (k, beh k (Event.mk event_name t data)))]
    rw [List.drop_append 1]
    rfl

/-- A two-subscriber bus used to evaluate `publish` concretely. -/
def twoSubBus : EventBus := ⟨[("evt", [1, 2])]⟩

/-- A handler behaviour in which handler 1 raises and every other
handler succeeds. -/
def raisingBeh : ℕ → Event → Except PyExn Unit :=
  fun h _ => if h = 1 then Except.error (PyExn.rpcError 0) else Except.ok ()

/-- Witness for C10: publishing on an empty bus is a no-op, and after
handler 1 raises, handler 2 is still invoked. -/
theorem publish_trace_spec_witness :
    publish raisingBeh ⟨[]⟩ "evt" 0 [] = [] ∧
    (publish raisingBeh twoSubBus "evt" 0 []).drop 1 = [(2, Except.ok ())] :=
  ⟨(publish_trace_spec raisingBeh ⟨[]⟩ "evt" 0 [] 0).2.2.1 rfl,
   (publish_trace_spec raisingBeh twoSubBus "evt" 0 [] 0).2.2.2.1 [] 1 [2] rfl⟩

/-- Witness for C9 at two concrete random draws. -/
theorem ephemeral_address_distinct_witness :
    derivedWsolAccount (Pubkey.walletKey 0) (List.replicate 24 0)
      ≠ derivedWsolAccount (Pubkey.walletKey 0) (1 :: List.replicate 23 0) :=
  ephemeral_address_distinct (Pubkey.walletKey 0) (List.replicate 24 0)
    (1 :: List.replicate 23 0) (by decide) (by decide) (by decide) (by decide) (by decide)

/-- Witness for C7 at `e = 100`, `d = 2`, `s = 5`. -/
theorem minimum_amount_out_spec_witness :
    buy_minimum_amount_out ((100 : ℚ) / 10 ^ 2) ((5 : ℕ) : ℤ) 2
        = ⌊(100 : ℚ) * (1 - ((5 : ℕ) : ℚ) / 100)⌋ ∧
    0 ≤ buy_minimum_amount_out ((100 : ℚ) / 10 ^ 2) ((5 : ℕ) : ℤ) 2 :=
  ⟨((minimum_amount_out_spec 100 2 5 (by norm_num)).1),
   ((minimum_amount_out_spec 100 2 5 (by norm_num)).2.2.2.1)⟩
